import Mathlib

/-!
Verification of the analyzer core of the ai-doc-generator repository
(`src/core/code_analyzer.py`).

The analyzer consumes a tree-sitter syntax tree over a source buffer and
emits structured records.  The tree-sitter parser itself is an external
binding (spec section 4.1), so the embedding takes the parsed tree as an
explicit argument: a `Node` carries the type tag, byte offsets, row
numbers, named fields (as indices into the children) and the ordered
children, exactly the interface `code_analyzer.py` reads.  All analyzer
functions are translated line by line from the Python source; `hashlib`'s
SHA-256 is implemented in full so that `_generate_id` is the real digest.
-/

/-! ## String helpers (Python primitives used by the analyzer) -/

/-- Python string slicing `s[a:b]` with non-negative indices (clamping at the
ends, empty when `b ≤ a`), as used by `_get_node_text`. -/
def string_slice (s : String) (a b : Nat) : String :=
  ((s.data.drop a).take (b - a)).asString

/-- Python `str.strip(chars)`: remove from both ends every leading/trailing
character that belongs to the set `cs`. -/
def py_strip_chars (s : String) (cs : List Char) : String :=
  (((s.data.dropWhile (fun c => cs.contains c)).reverse.dropWhile
      (fun c => cs.contains c)).reverse).asString

/-- The ASCII whitespace characters stripped by Python `str.strip()`. -/
def py_whitespace : List Char :=
  [' ', '\t', '\n', '\r', Char.ofNat 11, Char.ofNat 12]

/-- Python `s.startswith(pre)`: the characters of `pre` lead those of `s`. -/
def py_startswith (s pre : String) : Bool :=
  pre.data.isPrefixOf s.data

/-! ## SHA-256 (the `hashlib.sha256(...).hexdigest()` used by `_generate_id`)

32-bit words are plain `Nat` kept below `2 ^ 32` by explicit `% 4294967296`. -/

/-- UTF-8 encoding of one Unicode scalar value, as a list of byte values. -/
def utf8_encode_char (c : Nat) : List Nat :=
  if c < 0x80 then [c]
  else if c < 0x800 then [0xc0 + c / 0x40, 0x80 + c % 0x40]
  else if c < 0x10000 then
    [0xe0 + c / 0x1000, 0x80 + (c / 0x40) % 0x40, 0x80 + c % 0x40]
  else
    [0xf0 + c / 0x40000, 0x80 + (c / 0x1000) % 0x40,
     0x80 + (c / 0x40) % 0x40, 0x80 + c % 0x40]

/-- Python `str.encode()`: the UTF-8 bytes of a string. -/
def utf8_encode_string (s : String) : List Nat :=
  (s.data.map (fun c => utf8_encode_char c.toNat)).flatten

def pow32 : Nat := 4294967296

def add32 (a b : Nat) : Nat := (a + b) % pow32

def rotr32 (x n : Nat) : Nat := ((x >>> n) ||| (x <<< (32 - n))) % pow32

def sha_ch (x y z : Nat) : Nat := (x &&& y) ^^^ ((0xffffffff ^^^ x) &&& z)

def sha_maj (x y z : Nat) : Nat := (x &&& y) ^^^ (x &&& z) ^^^ (y &&& z)

def bsigma0 (x : Nat) : Nat := rotr32 x 2 ^^^ rotr32 x 13 ^^^ rotr32 x 22

def bsigma1 (x : Nat) : Nat := rotr32 x 6 ^^^ rotr32 x 11 ^^^ rotr32 x 25

def ssigma0 (x : Nat) : Nat := rotr32 x 7 ^^^ rotr32 x 18 ^^^ (x >>> 3)

def ssigma1 (x : Nat) : Nat := rotr32 x 17 ^^^ rotr32 x 19 ^^^ (x >>> 10)

/-- The SHA-256 round constants (FIPS 180-4 section 4.2.2), in decimal. -/
def sha_k : List Nat :=
  [1116352408, 1899447441, 3049323471, 3921009573, 961987163,
   1508970993, 2453635748, 2870763221, 3624381080, 310598401,
   607225278, 1426881987, 1925078388, 2162078206, 2614888103,
   3248222580, 3835390401, 4022224774, 264347078, 604807628,
   770255983, 1249150122, 1555081692, 1996064986, 2554220882,
   2821834349, 2952996808, 3210313671, 3336571891, 3584528711,
   113926993, 338241895, 666307205, 773529912, 1294757372,
   1396182291, 1695183700, 1986661051, 2177026350, 2456956037,
   2730485921, 2820302411, 3259730800, 3345764771, 3516065817,
   3600352804, 4094571909, 275423344, 430227734, 506948616,
   659060556, 883997877, 958139571, 1322822218, 1537002063,
   1747873779, 1955562222, 2024104815, 2227730452, 2361852424,
   2428436474, 2756734187, 3204031479, 3329325298]

/-- The SHA-256 initial hash state (FIPS 180-4 section 5.3.3), in decimal. -/
def sha_h0 : List Nat :=
  [1779033703, 3144134277, 1013904242, 2773480762, 1359893119,
   2600822924, 528734635, 1541459225]

/-- Big-endian packing of bytes into 32-bit words. -/
def bytes_to_words32 (bytes : List Nat) : List Nat :=
  (List.range (bytes.length / 4)).map (fun i =>
    bytes.getD (4 * i) 0 * 0x1000000 + bytes.getD (4 * i + 1) 0 * 0x10000 +
    bytes.getD (4 * i + 2) 0 * 0x100 + bytes.getD (4 * i + 3) 0)

/-- SHA-256 padding: a `0x80` byte, zeros to 56 mod 64, and the bit length
as eight big-endian bytes. -/
def sha_pad (msg : List Nat) : List Nat :=
  let bitlen := msg.length * 8
  let zeros := (64 + 56 - (msg.length + 1) % 64) % 64
  msg ++ [0x80] ++ List.replicate zeros 0 ++
    (List.range 8).map (fun i => (bitlen >>> (8 * (7 - i))) % 256)

/-- Message-schedule extension of the 16 block words to 64 words. -/
def sha_schedule (w : List Nat) : List Nat :=
  (List.range 48).foldl (fun acc _ =>
    let i := acc.length
    acc ++ [add32 (add32 (ssigma1 (acc.getD (i - 2) 0)) (acc.getD (i - 7) 0))
                  (add32 (ssigma0 (acc.getD (i - 15) 0)) (acc.getD (i - 16) 0))]) w

/-- One SHA-256 compression round on the eight-word working state. -/
def sha_round (w : List Nat) (state : List Nat) (i : Nat) : List Nat :=
  match state with
  | [a, b, c, d, e, f, g, h] =>
    let t1 := add32 h (add32 (bsigma1 e)
      (add32 (sha_ch e f g) (add32 (sha_k.getD i 0) (w.getD i 0))))
    let t2 := add32 (bsigma0 a) (sha_maj a b c)
    [add32 t1 t2, a, b, c, add32 d t1, e, f, g]
  | _ => state

/-- Compression of one 64-byte block into the running hash state. -/
def sha_compress (hs : List Nat) (block : List Nat) : List Nat :=
  let w := sha_schedule (bytes_to_words32 block)
  let out := (List.range 64).foldl (sha_round w) hs
  List.zipWith add32 hs out

/-- The eight 32-bit words of the SHA-256 digest of a byte sequence. -/
def sha256_words (msg : List Nat) : List Nat :=
  let padded := sha_pad msg
  (List.range (padded.length / 64)).foldl
    (fun hs i => sha_compress hs ((padded.drop (64 * i)).take 64)) sha_h0

def hex_digit (n : Nat) : Char :=
  if n < 10 then Char.ofNat (48 + n) else Char.ofNat (87 + n)

def word32_to_hex (w : Nat) : String :=
  ((List.range 8).map (fun i => hex_digit ((w >>> (4 * (7 - i))) % 16))).asString

/-- Lowercase hex digest, as `hashlib.sha256(bytes).hexdigest()`. -/
def sha256_hex (msg : List Nat) : String :=
  String.join ((sha256_words msg).map word32_to_hex)

/-! ## The tree-sitter node interface

A tree-sitter `Node` exposes `type`, `start_byte`/`end_byte`,
`start_point`/`end_point` (only the row component is read, via index 0),
`children`, and `child_by_field_name`.  Named fields of a node designate
particular children, so they are modelled as a map from field name to an
index into the children list. -/

inductive Node : Type where
  | node (type : String) (start_byte end_byte start_row end_row : Nat)
      (fields : List (String × Nat)) (children : List Node) : Node
deriving Repr

def Node.type : Node → String
  | .node t _ _ _ _ _ _ => t

def Node.start_byte : Node → Nat
  | .node _ sB _ _ _ _ _ => sB

def Node.end_byte : Node → Nat
  | .node _ _ eB _ _ _ _ => eB

/-- Row component of `node.start_point` (`start_point[0]`). -/
def Node.start_row : Node → Nat
  | .node _ _ _ sR _ _ _ => sR

/-- Row component of `node.end_point` (`end_point[0]`). -/
def Node.end_row : Node → Nat
  | .node _ _ _ _ eR _ _ => eR

def Node.children : Node → List Node
  | .node _ _ _ _ _ _ cs => cs

def Node.field_map : Node → List (String × Nat)
  | .node _ _ _ _ _ fs _ => fs

/-- Tree-sitter `node.child_by_field_name(f)`: the child designated by the
named field `f`, if any. -/
def Node.child_by_field_name (n : Node) (f : String) : Option Node :=
  match (n.field_map.find? (fun p => p.1 == f)) with
  | some p => n.children[p.2]?
  | none => none

/-- All nodes of a subtree (the node itself and, recursively, its children). -/
def Node.subnodes : Node → List Node
  | .node t sB eB sR eR fs cs =>
    Node.node t sB eB sR eR fs cs :: subnodes_list cs
where subnodes_list : List Node → List Node
  | [] => []
  | c :: rest => c.subnodes ++ subnodes_list rest

/-- Number of nodes of a given type in a subtree. -/
def count_nodes_of_type (t : String) : Node → Nat
  | .node ntype _ _ _ _ _ cs =>
    (if ntype == t then 1 else 0) + count_list cs
where count_list : List Node → Nat
  | [] => 0
  | c :: rest => count_nodes_of_type t c + count_list rest

/-- Number of outermost function-definition nodes: those reachable from the
root without passing through another function-definition node. -/
def count_outermost_fundefs : Node → Nat
  | .node ntype _ _ _ _ _ cs =>
    if ntype == "function_definition" then 1 else count_list cs
where count_list : List Node → Nat
  | [] => 0
  | c :: rest => count_outermost_fundefs c + count_list rest

/-! ## The data model (`src/models/schemas.py`) -/

/-- `CodeType` from `schemas.py`: the closed tag set of element kinds. -/
inductive CodeType : Type where
  | FUNCTION
  | CLASS
  | METHOD
  | MODULE
deriving Repr, DecidableEq

/-- `CodeSnippet` from `schemas.py`, the extracted record (the pydantic
validation layer is an external collaborator; the analyzer always populates
every field). -/
structure CodeSnippet : Type where
  id : String
  code : String
  language : String
  code_type : CodeType
  file_path : String
  line_start : Nat
  line_end : Nat
deriving Repr, DecidableEq

/-- The `metrics` dictionary built by `analyze_complexity`. -/
structure ComplexityMetrics : Type where
  lines : Nat
  cyclomatic_complexity : Nat
  nesting_depth : Nat
  num_parameters : Nat
  complexity_rating : String
deriving Repr, DecidableEq

/-! ## The analyzer (`src/core/code_analyzer.py`) -/

/-- `CodeAnalyzer._get_node_text`: `source_code[node.start_byte:node.end_byte]`. -/
def get_node_text (node : Node) (source_code : String) : String :=
  string_slice source_code node.start_byte node.end_byte

/-- `CodeAnalyzer._generate_id`: the first 16 hex characters of the SHA-256
digest of `f"{file_path}:{code}"`. -/
def generate_id (code : String) (file_path : String) : String :=
  let content := file_path ++ ":" ++ code
  (sha256_hex (utf8_encode_string content)).take 16

/-- Name resolution inside `_extract_functions`:
`self._get_node_text(name_node, source_code) if name_node else "unknown"`. -/
def function_name_of (node : Node) (source_code : String) : String :=
  match node.child_by_field_name "name" with
  | some name_node => get_node_text name_node source_code
  | none => "unknown"

mutual

/-- `CodeAnalyzer._extract_functions`. -/
def extract_functions (node : Node) (source_code : String) (file_path : String)
    (is_method : Bool) : List CodeSnippet :=
  match node with
  | .node ntype sB eB sR eR nfields cs =>
    let node := Node.node ntype sB eB sR eR nfields cs
    (if ntype == "function_definition" then
      let function_name := function_name_of node source_code
      -- Skip private/dunder methods unless they are __init__
      if is_method && py_startswith function_name "_" && function_name != "__init__" then
        []
      else
        let code := get_node_text node source_code
        [{ id := generate_id code file_path
         , code := code
         , language := "python"
         , code_type := if is_method then CodeType.METHOD else CodeType.FUNCTION
         , file_path := file_path
         , line_start := sR + 1
         , line_end := eR + 1 }]
    else []) ++
    -- Recursively search children (only when not a function_definition)
    (if ntype != "function_definition" then
      extract_functions_list cs source_code file_path is_method
    else [])

/-- The `for child in node.children` loop of `_extract_functions`. -/
def extract_functions_list (nodes : List Node) (source_code : String)
    (file_path : String) (is_method : Bool) : List CodeSnippet :=
  match nodes with
  | [] => []
  | child :: rest =>
    extract_functions child source_code file_path is_method ++
    extract_functions_list rest source_code file_path is_method

end

/-- The `for child in body_node.children` loop inside `_extract_classes`
that extracts the methods of a class body. -/
def extract_methods_of_body (nodes : List Node) (source_code : String)
    (file_path : String) : List CodeSnippet :=
  match nodes with
  | [] => []
  | child :: rest =>
    (if child.type == "function_definition" then
      extract_functions child source_code file_path true
    else []) ++
    extract_methods_of_body rest source_code file_path

mutual

/-- `CodeAnalyzer._extract_classes`. -/
def extract_classes (node : Node) (source_code : String) (file_path : String) :
    List CodeSnippet :=
  match node with
  | .node ntype sB eB sR eR nfields cs =>
    let node := Node.node ntype sB eB sR eR nfields cs
    (if ntype == "class_definition" then
      let code := get_node_text node source_code
      let class_snippet : CodeSnippet :=
        { id := generate_id code file_path
        , code := code
        , language := "python"
        , code_type := CodeType.CLASS
        , file_path := file_path
        , line_start := sR + 1
        , line_end := eR + 1 }
      -- Extract methods within the class body
      let method_snippets :=
        match node.child_by_field_name "body" with
        | some body_node => extract_methods_of_body body_node.children source_code file_path
        | none => []
      class_snippet :: method_snippets
    else []) ++
    -- Recursively search children
    extract_classes_list cs source_code file_path

/-- The `for child in node.children` loop of `_extract_classes`: it
recurses only into children that are NOT class-definition nodes. -/
def extract_classes_list (nodes : List Node) (source_code : String)
    (file_path : String) : List CodeSnippet :=
  match nodes with
  | [] => []
  | child :: rest =>
    (if child.type != "class_definition" then
      extract_classes child source_code file_path
    else []) ++
    extract_classes_list rest source_code file_path

end

/-- `CodeAnalyzer.parse_file` on the root node of the parsed tree of
`file_content` (the tree-sitter parse itself is the external binding of
spec section 4.1; its root node is always a `module` node). -/
def parse_file (root_node : Node) (file_content : String) (file_path : String) :
    List CodeSnippet :=
  extract_functions root_node file_content file_path false ++
  extract_classes root_node file_content file_path

/-- The decision-construct set of `_calculate_cyclomatic_complexity`. -/
def decision_nodes : List String :=
  ["if_statement", "for_statement", "while_statement", "except_clause",
   "with_statement", "boolean_operator", "conditional_expression"]

mutual

/-- `CodeAnalyzer._calculate_cyclomatic_complexity` (the `complexity`
argument defaults to 1 at the call site in `analyze_complexity`). -/
def calculate_cyclomatic_complexity (node : Node) (complexity : Nat) : Nat :=
  match node with
  | .node ntype _ _ _ _ _ cs =>
    let complexity := if decision_nodes.contains ntype then complexity + 1 else complexity
    calculate_cyclomatic_list cs complexity

/-- The `for child in node.children` loop of
`_calculate_cyclomatic_complexity`, threading the accumulator. -/
def calculate_cyclomatic_list (nodes : List Node) (complexity : Nat) : Nat :=
  match nodes with
  | [] => complexity
  | child :: rest =>
    calculate_cyclomatic_list rest (calculate_cyclomatic_complexity child complexity)

end

/-- The nesting-construct set of `_calculate_nesting_depth`. -/
def nesting_nodes : List String :=
  ["if_statement", "for_statement", "while_statement", "with_statement",
   "try_statement", "function_definition", "class_definition"]

mutual

/-- `CodeAnalyzer._calculate_nesting_depth` (the `current_depth` argument
defaults to 0 at the call site in `analyze_complexity`). -/
def calculate_nesting_depth (node : Node) (current_depth : Nat) : Nat :=
  match node with
  | .node ntype _ _ _ _ _ cs =>
    let current_depth :=
      if nesting_nodes.contains ntype then current_depth + 1 else current_depth
    nesting_depth_list cs current_depth current_depth

/-- The `for child in node.children` loop of `_calculate_nesting_depth`,
taking the maximum over the children. -/
def nesting_depth_list (nodes : List Node) (current_depth max_depth : Nat) : Nat :=
  match nodes with
  | [] => max_depth
  | child :: rest =>
    nesting_depth_list rest current_depth
      (Nat.max max_depth (calculate_nesting_depth child current_depth))

end

/-- `CodeAnalyzer._count_parameters`. -/
def count_parameters (node : Node) (source_code : String) : Nat :=
  if node.type == "function_definition" then
    match node.child_by_field_name "parameters" with
    | some params_node =>
      params_node.children.foldl (fun count child =>
        if child.type == "identifier" then
          if get_node_text child source_code != "self" then count + 1 else count
        else count) 0
    | none => 0
  else 0

/-- The rating thresholds applied by `analyze_complexity` to the computed
cyclomatic complexity. -/
def complexity_rating_of (cc : Nat) : String :=
  if cc ≤ 5 then "simple"
  else if cc ≤ 10 then "moderate"
  else if cc ≤ 20 then "complex"
  else "very complex"

/-- `CodeAnalyzer.analyze_complexity` on the root node of the parsed tree of
`code`.  Note every helper is applied to `tree.root_node`, which for
tree-sitter is always the `module` node. -/
def analyze_complexity (root_node : Node) (code : String) : ComplexityMetrics :=
  let cc := calculate_cyclomatic_complexity root_node 1
  { lines := code.data.countP (fun c => c == '\n') + 1
  , cyclomatic_complexity := cc
  , nesting_depth := calculate_nesting_depth root_node 0
  , num_parameters := count_parameters root_node code
  , complexity_rating := complexity_rating_of cc }

/-- The cleanup applied to a found docstring by `extract_docstring`:
`strip` with the triple double-quote, then with the triple single-quote,
then plain `strip()` (each `strip(chars)` removes a character SET from both
ends; codes 34 and 39 are the double-quote and the single-quote). -/
def clean_docstring (raw : String) : String :=
  py_strip_chars (py_strip_chars (py_strip_chars raw [Char.ofNat 34]) [Char.ofNat 39])
    py_whitespace

/-- The body of the `for node in tree.root_node.children` loop of
`extract_docstring`: the docstring this top-level node contributes, if any.
Matches the fall-through structure of the Python loop: every failing test
falls through to the next iteration. -/
def docstring_step (node : Node) (code : String) : Option String :=
  if node.type == "function_definition" || node.type == "class_definition" then
    match node.child_by_field_name "body" with
    | some body =>
      match body.children with
      | first_stmt :: _ =>
        if first_stmt.type == "expression_statement" then
          match first_stmt.children with
          | string_node :: _ =>
            if string_node.type == "string" then
              some (clean_docstring (get_node_text string_node code))
            else none
          | [] => none
        else none
      | [] => none
    | none => none
  else none

/-- The scanning loop of `extract_docstring` over the top-level children. -/
def extract_docstring_loop (nodes : List Node) (code : String) : Option String :=
  match nodes with
  | [] => none
  | node :: rest =>
    match docstring_step node code with
    | some d => some d
    | none => extract_docstring_loop rest code

/-- `CodeAnalyzer.extract_docstring` on the root node of the parsed tree of
`code`. -/
def extract_docstring (root_node : Node) (code : String) : Option String :=
  extract_docstring_loop root_node.children code

/-- The scanning loop of `get_function_signature` over the top-level
children: the first function-definition with both a name and a parameters
field yields `f"{name_text}{params_text}"`. -/
def get_function_signature_loop (nodes : List Node) (code : String) : Option String :=
  match nodes with
  | [] => none
  | node :: rest =>
    if node.type == "function_definition" then
      match node.child_by_field_name "name", node.child_by_field_name "parameters" with
      | some name, some params =>
        some (get_node_text name code ++ get_node_text params code)
      | _, _ => get_function_signature_loop rest code
    else get_function_signature_loop rest code

/-- `CodeAnalyzer.get_function_signature` on the root node of the parsed
tree of `code`. -/
def get_function_signature (root_node : Node) (code : String) : Option String :=
  get_function_signature_loop root_node.children code

/-- Formalization of the SPEC's description of `extractDescription`
(section 4.5), for comparison with the code: only the very FIRST top-level
function- or class-definition is consulted; later ones are ignored even if
the first has no docstring. -/
def extract_docstring_first_only (root_node : Node) (code : String) : Option String :=
  match root_node.children.find?
      (fun n => n.type == "function_definition" || n.type == "class_definition") with
  | some node => docstring_step node code
  | none => none

/-- Number of decision-construct nodes in a subtree (an order-free count,
used to state that cyclomatic complexity is a pure sum). -/
def count_decision_nodes : Node → Nat
  | .node ntype _ _ _ _ _ cs =>
    (if decision_nodes.contains ntype then 1 else 0) + count_list cs
where count_list : List Node → Nat
  | [] => 0
  | c :: rest => count_decision_nodes c + count_list rest

/-! ## Concrete parsed trees

Each fixture below is the tree-sitter parse tree of a small Python source,
written out node by node (type tag, byte span, row span, named fields as
indices into the children, children).  Offsets are the actual byte offsets
into the source string. -/

/-- Source `"class A:\n    def m(self):\n        pass\n"`. -/
def code1 : String := "class A:\n    def m(self):\n        pass\n"

/-- The `function_definition` node of method `m` inside `class A`. -/
def t1_fn : Node :=
  .node "function_definition" 13 38 1 2 [("name", 1), ("parameters", 2), ("body", 4)]
    [.node "def" 13 16 1 1 [] [],
     .node "identifier" 17 18 1 1 [] [],
     .node "parameters" 18 24 1 1 []
       [.node "(" 18 19 1 1 [] [],
        .node "identifier" 19 23 1 1 [] [],
        .node ")" 23 24 1 1 [] []],
     .node ":" 24 25 1 1 [] [],
     .node "block" 34 38 2 2 [] [.node "pass_statement" 34 38 2 2 [] []]]

/-- The `class_definition` node of `class A`. -/
def t1_class : Node :=
  .node "class_definition" 0 38 0 2 [("name", 1), ("body", 3)]
    [.node "class" 0 5 0 0 [] [],
     .node "identifier" 6 7 0 0 [] [],
     .node ":" 7 8 0 0 [] [],
     .node "block" 13 38 1 2 [] [t1_fn]]

/-- The `module` root of the parse of `code1`. -/
def t1 : Node := .node "module" 0 39 0 3 [] [t1_class]

/-- Source `"def f():\n    pass\n"`. -/
def codeW : String := "def f():\n    pass\n"

/-- The `function_definition` node of `f` in `codeW`. -/
def tW_fn : Node :=
  .node "function_definition" 0 17 0 1 [("name", 1), ("parameters", 2), ("body", 4)]
    [.node "def" 0 3 0 0 [] [],
     .node "identifier" 4 5 0 0 [] [],
     .node "parameters" 5 7 0 0 []
       [.node "(" 5 6 0 0 [] [], .node ")" 6 7 0 0 [] []],
     .node ":" 7 8 0 0 [] [],
     .node "block" 13 17 1 1 [] [.node "pass_statement" 13 17 1 1 [] []]]

/-- The `module` root of the parse of `codeW`. -/
def tW : Node := .node "module" 0 18 0 2 [] [tW_fn]

/-- Source `"def f():\n    def g():\n        pass\n"` (a nested function). -/
def code2 : String := "def f():\n    def g():\n        pass\n"

/-- The inner `function_definition` node of `g`. -/
def t2_g : Node :=
  .node "function_definition" 13 34 1 2 [("name", 1), ("parameters", 2), ("body", 4)]
    [.node "def" 13 16 1 1 [] [],
     .node "identifier" 17 18 1 1 [] [],
     .node "parameters" 18 20 1 1 []
       [.node "(" 18 19 1 1 [] [], .node ")" 19 20 1 1 [] []],
     .node ":" 20 21 1 1 [] [],
     .node "block" 30 34 2 2 [] [.node "pass_statement" 30 34 2 2 [] []]]

/-- The outer `function_definition` node of `f` (with `g` in its body). -/
def t2_f : Node :=
  .node "function_definition" 0 34 0 2 [("name", 1), ("parameters", 2), ("body", 4)]
    [.node "def" 0 3 0 0 [] [],
     .node "identifier" 4 5 0 0 [] [],
     .node "parameters" 5 7 0 0 []
       [.node "(" 5 6 0 0 [] [], .node ")" 6 7 0 0 [] []],
     .node ":" 7 8 0 0 [] [],
     .node "block" 13 34 1 2 [] [t2_g]]

/-- The `module` root of the parse of `code2`. -/
def t2 : Node := .node "module" 0 35 0 3 [] [t2_f]

/-- Source `"def m(self, x, y):\n    pass\n"`. -/
def code4 : String := "def m(self, x, y):\n    pass\n"

/-- The `parameters` node of `m` in `code4`; its children are
`(`, `self`, `,`, `x`, `,`, `y`, `)`. -/
def t4_params : Node :=
  .node "parameters" 5 17 0 0 []
    [.node "(" 5 6 0 0 [] [],
     .node "identifier" 6 10 0 0 [] [],
     .node "," 10 11 0 0 [] [],
     .node "identifier" 12 13 0 0 [] [],
     .node "," 13 14 0 0 [] [],
     .node "identifier" 15 16 0 0 [] [],
     .node ")" 16 17 0 0 [] []]

/-- The `function_definition` node of `m` in `code4`. -/
def t4_fn : Node :=
  .node "function_definition" 0 27 0 1 [("name", 1), ("parameters", 2), ("body", 4)]
    [.node "def" 0 3 0 0 [] [],
     .node "identifier" 4 5 0 0 [] [],
     t4_params,
     .node ":" 17 18 0 0 [] [],
     .node "block" 23 27 1 1 [] [.node "pass_statement" 23 27 1 1 [] []]]

/-- The `module` root of the parse of `code4` — what
`analyze_complexity(code4)` actually hands to `_count_parameters`. -/
def t4 : Node := .node "module" 0 28 0 2 [] [t4_fn]

/-- Source `"def _helper(self):\n    pass\n"`. -/
def code6h : String := "def _helper(self):\n    pass\n"

/-- The `function_definition` node of `_helper`. -/
def t6_helper : Node :=
  .node "function_definition" 0 27 0 1 [("name", 1), ("parameters", 2), ("body", 4)]
    [.node "def" 0 3 0 0 [] [],
     .node "identifier" 4 11 0 0 [] [],
     .node "parameters" 11 17 0 0 []
       [.node "(" 11 12 0 0 [] [],
        .node "identifier" 12 16 0 0 [] [],
        .node ")" 16 17 0 0 [] []],
     .node ":" 17 18 0 0 [] [],
     .node "block" 23 27 1 1 [] [.node "pass_statement" 23 27 1 1 [] []]]

/-- Source `"def __init__(self):\n    pass\n"`. -/
def code6i : String := "def __init__(self):\n    pass\n"

/-- The `function_definition` node of `__init__`. -/
def t6_init : Node :=
  .node "function_definition" 0 28 0 1 [("name", 1), ("parameters", 2), ("body", 4)]
    [.node "def" 0 3 0 0 [] [],
     .node "identifier" 4 12 0 0 [] [],
     .node "parameters" 12 18 0 0 []
       [.node "(" 12 13 0 0 [] [],
        .node "identifier" 13 17 0 0 [] [],
        .node ")" 17 18 0 0 [] []],
     .node ":" 18 19 0 0 [] [],
     .node "block" 24 28 1 1 [] [.node "pass_statement" 24 28 1 1 [] []]]

/-- Source with two top-level defs, where only the SECOND has a docstring:
`"def f():\n    pass\n\ndef g():\n    \"\"\"hi\"\"\"\n"`. -/
def code7 : String := "def f():\n    pass\n\ndef g():\n    \"\"\"hi\"\"\"\n"

/-- The second `function_definition` node (`g`, with docstring). -/
def t7_g : Node :=
  .node "function_definition" 19 40 3 4 [("name", 1), ("parameters", 2), ("body", 4)]
    [.node "def" 19 22 3 3 [] [],
     .node "identifier" 23 24 3 3 [] [],
     .node "parameters" 24 26 3 3 []
       [.node "(" 24 25 3 3 [] [], .node ")" 25 26 3 3 [] []],
     .node ":" 26 27 3 3 [] [],
     .node "block" 32 40 4 4 []
       [.node "expression_statement" 32 40 4 4 []
         [.node "string" 32 40 4 4 [] []]]]

/-- The `module` root of the parse of `code7`; its first child is the
docstring-less `f`, the second is `g`. -/
def t7 : Node := .node "module" 0 41 0 5 [] [tW_fn, t7_g]

/-- Source with no function or class at all: `"x = 1\n"`. -/
def code8 : String := "x = 1\n"

/-- The `module` root of the parse of `code8`. -/
def t8 : Node :=
  .node "module" 0 6 0 1 []
    [.node "expression_statement" 0 5 0 0 []
      [.node "assignment" 0 5 0 0 [("left", 0), ("right", 2)]
        [.node "identifier" 0 1 0 0 [] [],
         .node "=" 2 3 0 0 [] [],
         .node "integer" 4 5 0 0 [] []]]]

/-- Source `"def add(a, b):\n    return a + b\n"` — no branching construct. -/
def code9a : String := "def add(a, b):\n    return a + b\n"

/-- The `module` root of the parse of `code9a`. -/
def t9a : Node :=
  .node "module" 0 32 0 2 []
    [.node "function_definition" 0 31 0 1 [("name", 1), ("parameters", 2), ("body", 4)]
      [.node "def" 0 3 0 0 [] [],
       .node "identifier" 4 7 0 0 [] [],
       .node "parameters" 7 13 0 0 []
         [.node "(" 7 8 0 0 [] [],
          .node "identifier" 8 9 0 0 [] [],
          .node "," 9 10 0 0 [] [],
          .node "identifier" 11 12 0 0 [] [],
          .node ")" 12 13 0 0 [] []],
       .node ":" 13 14 0 0 [] [],
       .node "block" 19 31 1 1 []
         [.node "return_statement" 19 31 1 1 []
           [.node "return" 19 25 1 1 [] [],
            .node "binary_operator" 26 31 1 1 [("left", 0), ("right", 2)]
              [.node "identifier" 26 27 1 1 [] [],
               .node "+" 28 29 1 1 [] [],
               .node "identifier" 30 31 1 1 [] []]]]]]

/-- Source with one `for`, one `if` and one boolean `and`:
`"def f(x):\n    for i in x:\n        if a and b:\n            return 1\n"`. -/
def code9b : String :=
  "def f(x):\n    for i in x:\n        if a and b:\n            return 1\n"

/-- The `module` root of the parse of `code9b`. -/
def t9b : Node :=
  .node "module" 0 67 0 4 []
    [.node "function_definition" 0 66 0 3 [("name", 1), ("parameters", 2), ("body", 4)]
      [.node "def" 0 3 0 0 [] [],
       .node "identifier" 4 5 0 0 [] [],
       .node "parameters" 5 8 0 0 []
         [.node "(" 5 6 0 0 [] [],
          .node "identifier" 6 7 0 0 [] [],
          .node ")" 7 8 0 0 [] []],
       .node ":" 8 9 0 0 [] [],
       .node "block" 14 66 1 3 []
         [.node "for_statement" 14 66 1 3 [("left", 1), ("right", 3), ("body", 5)]
           [.node "for" 14 17 1 1 [] [],
            .node "identifier" 18 19 1 1 [] [],
            .node "in" 20 22 1 1 [] [],
            .node "identifier" 23 24 1 1 [] [],
            .node ":" 24 25 1 1 [] [],
            .node "block" 34 66 2 3 []
              [.node "if_statement" 34 66 2 3 [("condition", 1), ("consequence", 3)]
                [.node "if" 34 36 2 2 [] [],
                 .node "boolean_operator" 37 44 2 2 [("left", 0), ("right", 2)]
                   [.node "identifier" 37 38 2 2 [] [],
                    .node "and" 39 42 2 2 [] [],
                    .node "identifier" 43 44 2 2 [] []],
                 .node ":" 44 45 2 2 [] [],
                 .node "block" 58 66 3 3 []
                   [.node "return_statement" 58 66 3 3 []
                     [.node "return" 58 64 3 3 [] [],
                      .node "integer" 65 66 3 3 [] []]]]]]]]]

/-- The single record `parse_file` returns on `codeW` (used as a concrete
instance of the provenance invariant). -/
def wit_snippet : CodeSnippet :=
  { id := generate_id "def f():\n    pass" "w.py"
  , code := "def f():\n    pass"
  , language := "python"
  , code_type := CodeType.FUNCTION
  , file_path := "w.py"
  , line_start := 1
  , line_end := 2 }

/-! ## Helper lemmas -/

theorem Node.sizeOf_mem_children_lt {c n : Node} (h : c ∈ n.children) :
    sizeOf c < sizeOf n := by
  cases n with
  | node t sB eB sR eR fs cs =>
    simp only [Node.children] at h
    have h1 := List.sizeOf_lt_of_mem h
    have h2 : sizeOf (Node.node t sB eB sR eR fs cs) =
        1 + sizeOf t + sizeOf sB + sizeOf eB + sizeOf sR + sizeOf eR + sizeOf fs + sizeOf cs := by
      simp
    omega

/-- Induction over a node from induction hypotheses on all its children. -/
theorem Node.children_ind {P : Node → Prop}
    (step : ∀ n : Node, (∀ c ∈ n.children, P c) → P n) (n : Node) : P n := by
  have key : ∀ k : Nat, ∀ m : Node, sizeOf m ≤ k → P m := by
    intro k
    induction k with
    | zero =>
      intro m hm
      refine step m (fun c hc => ?_)
      exact absurd (Nat.lt_of_lt_of_le (Node.sizeOf_mem_children_lt hc) hm)
        (Nat.not_lt_zero _)
    | succ k ih =>
      intro m hm
      refine step m (fun c hc => ?_)
      exact ih c (by have := Node.sizeOf_mem_children_lt hc; omega)
  exact key (sizeOf n) n (Nat.le_refl _)

/-- Membership in the class-pass loop output comes from a non-class child. -/
theorem mem_extract_classes_list (source_code file_path : String) :
    ∀ (cs : List Node) (s : CodeSnippet),
      s ∈ extract_classes_list cs source_code file_path →
      ∃ c ∈ cs, c.type ≠ "class_definition" ∧ s ∈ extract_classes c source_code file_path := by
  intro cs
  induction cs with
  | nil => intro s hs; simp [extract_classes_list] at hs
  | cons c rest ih =>
    intro s hs
    simp only [extract_classes_list, List.mem_append] at hs
    rcases hs with hs | hs
    · by_cases hc : c.type = "class_definition"
      · simp [hc] at hs
      · refine ⟨c, List.mem_cons_self c rest, hc, ?_⟩
        simpa [hc] using hs
    · obtain ⟨d, hd, hdt, hds⟩ := ih s hs
      exact ⟨d, List.mem_cons_of_mem c hd, hdt, hds⟩

/-- The class pass of `_extract_classes` produces NOTHING when started at a
node that is not itself a class-definition: the branch that emits class
records is unreachable because the recursion skips class children. -/
theorem extract_classes_eq_nil (source_code file_path : String) :
    ∀ n : Node, n.type ≠ "class_definition" → extract_classes n source_code file_path = [] := by
  intro n
  induction n using Node.children_ind with
  | step n ih =>
    intro hn
    cases n with
    | node ntype sB eB sR eR nfields cs =>
      simp only [Node.type] at hn ih
      rw [extract_classes]
      simp only [beq_iff_eq, if_neg hn, List.nil_append]
      have hlist : ∀ cs2 : List Node,
          (∀ c ∈ cs2, c.type ≠ "class_definition" → extract_classes c source_code file_path = []) →
          extract_classes_list cs2 source_code file_path = [] := by
        intro cs2
        induction cs2 with
        | nil => intro _; rw [extract_classes_list]
        | cons c rest ihl =>
          intro h
          rw [extract_classes_list]
          rw [ihl (fun x hx => h x (List.mem_cons_of_mem _ hx))]
          by_cases hc : c.type = "class_definition"
          · simp [hc]
          · simp [bne_iff_ne, hc, h c (List.mem_cons_self _ _) hc]
      exact hlist cs (fun c hc hct => ih c (by simpa [Node.children] using hc) hct)

/-- Membership in the function-pass loop output comes from some child. -/
theorem mem_extract_functions_list (source_code file_path : String) (is_method : Bool) :
    ∀ (cs : List Node) (s : CodeSnippet),
      s ∈ extract_functions_list cs source_code file_path is_method →
      ∃ c ∈ cs, s ∈ extract_functions c source_code file_path is_method := by
  intro cs
  induction cs with
  | nil => intro s hs; simp [extract_functions_list] at hs
  | cons c rest ih =>
    intro s hs
    simp only [extract_functions_list, List.mem_append] at hs
    rcases hs with hs | hs
    · exact ⟨c, List.mem_cons_self c rest, hs⟩
    · obtain ⟨d, hd, hds⟩ := ih s hs
      exact ⟨d, List.mem_cons_of_mem c hd, hds⟩

/-- Every record the function pass emits is tagged `METHOD` exactly when the
pass runs in method-context, else `FUNCTION`. -/
theorem extract_functions_code_type (source_code file_path : String) (is_method : Bool) :
    ∀ (n : Node) (s : CodeSnippet),
      s ∈ extract_functions n source_code file_path is_method →
      s.code_type = (if is_method then CodeType.METHOD else CodeType.FUNCTION) := by
  intro n
  induction n using Node.children_ind with
  | step n ih =>
    intro s hs
    cases n with
    | node ntype sB eB sR eR nfields cs =>
      rw [extract_functions] at hs
      simp only [List.mem_append] at hs
      rcases hs with hs | hs
      · split at hs
        · split at hs
          · simp at hs
          · simp only [List.mem_singleton] at hs
            subst hs
            rfl
        · simp at hs
      · split at hs
        · obtain ⟨c, hc, hcs⟩ :=
            mem_extract_functions_list source_code file_path is_method cs s hs
          exact ih c (by simpa [Node.children] using hc) s hcs
        · simp at hs

/-- With method-context off, the function pass emits exactly one record per
outermost function-definition node (it never descends into a
function-definition's own subtree). -/
theorem extract_functions_length (source_code file_path : String) :
    ∀ n : Node,
      (extract_functions n source_code file_path false).length = count_outermost_fundefs n := by
  intro n
  induction n using Node.children_ind with
  | step n ih =>
    cases n with
    | node ntype sB eB sR eR nfields cs =>
      have hlist : ∀ cs2 : List Node,
          (∀ c ∈ cs2, (extract_functions c source_code file_path false).length =
            count_outermost_fundefs c) →
          (extract_functions_list cs2 source_code file_path false).length =
            count_outermost_fundefs.count_list cs2 := by
        intro cs2
        induction cs2 with
        | nil => intro _; simp [extract_functions_list, count_outermost_fundefs.count_list]
        | cons c rest ihl =>
          intro h
          rw [extract_functions_list, count_outermost_fundefs.count_list]
          rw [List.length_append, h c (List.mem_cons_self _ _),
            ihl (fun x hx => h x (List.mem_cons_of_mem _ hx))]
      have hrec := hlist cs (fun c hc => ih c (by simpa [Node.children] using hc))
      rw [extract_functions, count_outermost_fundefs]
      by_cases ht : ntype = "function_definition"
      · simp [ht]
      · simp only [beq_iff_eq, bne_iff_ne, ne_eq, ht, not_false_iff, if_pos, if_neg,
          if_false, List.nil_append, List.length_append]
        simpa using hrec

/-- The threaded cyclomatic accumulator computes a pure, order-independent
sum: starting value plus the number of decision nodes in the subtree. -/
theorem calculate_cyclomatic_eq :
    ∀ (n : Node) (k : Nat),
      calculate_cyclomatic_complexity n k = k + count_decision_nodes n := by
  intro n
  induction n using Node.children_ind with
  | step n ih =>
    intro k
    cases n with
    | node ntype sB eB sR eR nfields cs =>
      have hlist : ∀ cs2 : List Node,
          (∀ c ∈ cs2, ∀ j : Nat,
            calculate_cyclomatic_complexity c j = j + count_decision_nodes c) →
          ∀ j : Nat, calculate_cyclomatic_list cs2 j =
            j + count_decision_nodes.count_list cs2 := by
        intro cs2
        induction cs2 with
        | nil =>
          intro _ j
          simp [calculate_cyclomatic_list, count_decision_nodes.count_list]
        | cons c rest ihl =>
          intro h j
          rw [calculate_cyclomatic_list, count_decision_nodes.count_list,
            h c (List.mem_cons_self _ _) j,
            ihl (fun x hx => h x (List.mem_cons_of_mem _ hx))]
          omega
      have hrec := hlist cs (fun c hc => ih c (by simpa [Node.children] using hc))
      simp only [calculate_cyclomatic_complexity, count_decision_nodes]
      rw [hrec]
      cases hC : decision_nodes.contains ntype
      all_goals simp [hC]
      all_goals omega

theorem Node.self_mem_subnodes (n : Node) : n ∈ n.subnodes := by
  cases n with
  | node t sB eB sR eR fs cs =>
    rw [Node.subnodes]
    exact List.mem_cons_self _ _

theorem mem_subnodes_list_of_mem {x c : Node} :
    ∀ {cs : List Node}, c ∈ cs → x ∈ c.subnodes → x ∈ Node.subnodes.subnodes_list cs := by
  intro cs
  induction cs with
  | nil => intro h; simp at h
  | cons d rest ih =>
    intro hc hx
    rw [Node.subnodes.subnodes_list]
    rcases List.mem_cons.mp hc with h | h
    · subst h
      exact List.mem_append_left _ hx
    · exact List.mem_append_right _ (ih h hx)

/-- Subtree membership propagates to any ancestor through a child. -/
theorem mem_subnodes_of_mem_child {x c n : Node} (hc : c ∈ n.children)
    (hx : x ∈ c.subnodes) : x ∈ n.subnodes := by
  cases n with
  | node t sB eB sR eR fs cs =>
    rw [Node.subnodes]
    simp only [Node.children] at hc
    exact List.mem_cons_of_mem _ (mem_subnodes_list_of_mem hc hx)

/-- A child found through `child_by_field_name` is one of the children. -/
theorem child_by_field_name_mem {n c : Node} {f : String}
    (h : n.child_by_field_name f = some c) : c ∈ n.children := by
  rw [Node.child_by_field_name] at h
  rcases hf : n.field_map.find? (fun p => p.1 == f) with _ | p
  · rw [hf] at h; exact absurd h (by simp)
  · rw [hf] at h
    exact List.getElem?_mem h

/-- Membership in the methods-of-a-class-body loop output. -/
theorem mem_extract_methods_of_body (source_code file_path : String) :
    ∀ (cs : List Node) (s : CodeSnippet),
      s ∈ extract_methods_of_body cs source_code file_path →
      ∃ c ∈ cs, s ∈ extract_functions c source_code file_path true := by
  intro cs
  induction cs with
  | nil => intro s hs; simp [extract_methods_of_body] at hs
  | cons c rest ih =>
    intro s hs
    rw [extract_methods_of_body] at hs
    rcases List.mem_append.mp hs with hs | hs
    · split at hs
      · exact ⟨c, List.mem_cons_self c rest, hs⟩
      · simp at hs
    · obtain ⟨d, hd, hds⟩ := ih s hs
      exact ⟨d, List.mem_cons_of_mem c hd, hds⟩

theorem eq_of_mem_ite_nil_singleton {α : Type} {c : Prop} [Decidable c] {x y : α}
    (h : x ∈ (if c then ([] : List α) else [y])) : x = y := by
  by_cases hc : c
  · rw [if_pos hc] at h
    simp at h
  · rw [if_neg hc] at h
    simpa using h

/-- Provenance of the function pass: every record's text is the byte-slice
of its originating node and its line numbers come from that same node. -/
theorem extract_functions_provenance (source_code file_path : String) (is_method : Bool) :
    ∀ (n : Node) (s : CodeSnippet),
      s ∈ extract_functions n source_code file_path is_method →
      ∃ nd ∈ n.subnodes,
        s.code = string_slice source_code nd.start_byte nd.end_byte ∧
        s.line_start = nd.start_row + 1 ∧ s.line_end = nd.end_row + 1 := by
  intro n
  induction n using Node.children_ind with
  | step n ih =>
    intro s hs
    cases n with
    | node ntype sB eB sR eR nfields cs =>
      rw [extract_functions] at hs
      rcases List.mem_append.mp hs with hs | hs
      · split at hs
        · have hseq := eq_of_mem_ite_nil_singleton hs
          refine ⟨Node.node ntype sB eB sR eR nfields cs, Node.self_mem_subnodes _, ?_⟩
          subst hseq
          simp [get_node_text, Node.start_byte, Node.end_byte, Node.start_row, Node.end_row]
        · simp at hs
      · split at hs
        · obtain ⟨c, hc, hcs⟩ :=
            mem_extract_functions_list source_code file_path is_method cs s hs
          obtain ⟨nd, hnd, hprop⟩ := ih c (by simpa [Node.children] using hc) s hcs
          exact ⟨nd, mem_subnodes_of_mem_child (by simpa [Node.children] using hc) hnd, hprop⟩
        · simp at hs

/-- Provenance of the class pass (class records and their method records). -/
theorem extract_classes_provenance (source_code file_path : String) :
    ∀ (n : Node) (s : CodeSnippet),
      s ∈ extract_classes n source_code file_path →
      ∃ nd ∈ n.subnodes,
        s.code = string_slice source_code nd.start_byte nd.end_byte ∧
        s.line_start = nd.start_row + 1 ∧ s.line_end = nd.end_row + 1 := by
  intro n
  induction n using Node.children_ind with
  | step n ih =>
    intro s hs
    cases n with
    | node ntype sB eB sR eR nfields cs =>
      rw [extract_classes] at hs
      rcases List.mem_append.mp hs with hs | hs
      · split at hs
        · rcases List.mem_cons.mp hs with hseq | hs
          · refine ⟨Node.node ntype sB eB sR eR nfields cs, Node.self_mem_subnodes _, ?_⟩
            subst hseq
            simp [get_node_text, Node.start_byte, Node.end_byte, Node.start_row, Node.end_row]
          · rcases hb : (Node.node ntype sB eB sR eR nfields cs).child_by_field_name "body" with
              _ | body
            · rw [hb] at hs
              simp at hs
            · rw [hb] at hs
              obtain ⟨c, hc, hcs⟩ :=
                mem_extract_methods_of_body source_code file_path body.children s hs
              obtain ⟨nd, hnd, hprop⟩ :=
                extract_functions_provenance source_code file_path true c s hcs
              exact ⟨nd,
                mem_subnodes_of_mem_child (child_by_field_name_mem hb)
                  (mem_subnodes_of_mem_child hc hnd), hprop⟩
        · simp at hs
      · obtain ⟨c, hc, hct, hcs⟩ := mem_extract_classes_list source_code file_path cs s hs
        obtain ⟨nd, hnd, hprop⟩ := ih c (by simpa [Node.children] using hc) s hcs
        exact ⟨nd, mem_subnodes_of_mem_child (by simpa [Node.children] using hc) hnd, hprop⟩

/-- The docstring scan is exactly `findSome?` over the top-level children:
the FIRST child whose per-node step yields a docstring wins, and children
whose step fails (including matching definitions without a docstring) are
skipped rather than stopping the scan. -/
theorem extract_docstring_loop_eq_findSome (code : String) :
    ∀ nodes : List Node,
      extract_docstring_loop nodes code = nodes.findSome? (fun n => docstring_step n code) := by
  intro nodes
  induction nodes with
  | nil => rfl
  | cons n rest ih =>
    rw [extract_docstring_loop, List.findSome?_cons]
    cases docstring_step n code
    · exact ih
    · rfl

/-- On a fragment whose top level has no function- or class-definition the
docstring scan returns `none`. -/
theorem extract_docstring_loop_none (code : String) :
    ∀ nodes : List Node,
      (∀ c ∈ nodes, c.type ≠ "function_definition" ∧ c.type ≠ "class_definition") →
      extract_docstring_loop nodes code = none := by
  intro nodes
  induction nodes with
  | nil => intro _; rfl
  | cons n rest ih =>
    intro h
    rw [extract_docstring_loop]
    have hstep : docstring_step n code = none := by
      rw [docstring_step]
      have h1 := (h n (List.mem_cons_self _ _)).1
      have h2 := (h n (List.mem_cons_self _ _)).2
      simp [h1, h2]
    rw [hstep]
    exact ih (fun c hc => h c (List.mem_cons_of_mem _ hc))

/-- On a fragment whose top level has no function-definition the signature
scan returns `none`. -/
theorem get_function_signature_loop_none (code : String) :
    ∀ nodes : List Node,
      (∀ c ∈ nodes, c.type ≠ "function_definition") →
      get_function_signature_loop nodes code = none := by
  intro nodes
  induction nodes with
  | nil => intro _; rfl
  | cons n rest ih =>
    intro h
    rw [get_function_signature_loop]
    have h1 := h n (List.mem_cons_self _ _)
    simp only [beq_iff_eq, h1, if_false, ite_false]
    exact ih (fun c hc => h c (List.mem_cons_of_mem _ hc))

/-- The parameter-counting loop is a pure count of the matching children. -/
theorem count_parameters_loop_eq (source_code : String) :
    ∀ (l : List Node) (a : Nat),
      l.foldl (fun count child =>
        if child.type == "identifier" then
          if get_node_text child source_code != "self" then count + 1 else count
        else count) a =
      a + l.countP (fun c => c.type == "identifier" &&
        (get_node_text c source_code != "self")) := by
  intro l
  induction l with
  | nil => intro a; simp
  | cons c rest ih =>
    intro a
    rw [List.foldl_cons, List.countP_cons, ih]
    by_cases h1 : c.type = "identifier"
    · by_cases h2 : get_node_text c source_code = "self"
      · simp [h1, h2]
      · simp [h1, h2]
        omega
    · simp [h1]

/-- `_count_parameters` on a function-definition node with a parameters
field counts exactly the identifier children whose text is not `self`. -/
theorem count_parameters_eq (n : Node) (source_code : String) (params : Node)
    (hty : n.type = "function_definition")
    (hp : n.child_by_field_name "parameters" = some params) :
    count_parameters n source_code =
      params.children.countP (fun c => c.type == "identifier" &&
        (get_node_text c source_code != "self")) := by
  rw [count_parameters]
  simp only [hty, beq_self_eq_true, if_true, hp]
  rw [count_parameters_loop_eq]
  omega

/-- `_count_parameters` is 0 whenever the node it is handed is not a
function-definition node. -/
theorem count_parameters_non_function (n : Node) (source_code : String)
    (hty : n.type ≠ "function_definition") :
    count_parameters n source_code = 0 := by
  rw [count_parameters]
  simp [hty]

/-- Appending the same `":" ++ code` suffix to two different paths keeps the
digest inputs different. -/
theorem digest_input_injective (code p1 p2 : String) (h : p1 ≠ p2) :
    p1 ++ ":" ++ code ≠ p2 ++ ":" ++ code := by
  intro heq
  apply h
  have hd : (p1 ++ ":" ++ code).data = (p2 ++ ":" ++ code).data := by rw [heq]
  simp only [String.data_append] at hd
  have h1 : p1.data ++ ":".data = p2.data ++ ":".data := by
    have hlen : (p1.data ++ ":".data).length = (p2.data ++ ":".data).length := by
      have := congrArg List.length hd
      simp only [List.length_append] at this ⊢
      omega
    exact (List.append_inj hd hlen).1
  have h2 : p1.data = p2.data := by
    have hlen : p1.data.length = p2.data.length := by
      have := congrArg List.length h1
      simp only [List.length_append] at this
      omega
    exact (List.append_inj h1 hlen).1
  cases p1 with
  | mk d1 =>
    cases p2 with
    | mk d2 => exact congrArg String.mk h2

/-! ## Claim theorems -/

/-- C1 (code bug): the spec contract — one CLASS record per class-definition
node plus METHOD records for the functions of its body — fails on the code.
On the parse tree of `"class A:\n    def m(self):\n        pass\n"` (one
class containing one method) `parse_file` returns a single FUNCTION record
(the method, reached by the top-level function pass) and no CLASS or METHOD
record: the class pass recurses only into children that are NOT
class-definition nodes, so its class-emitting branch is unreachable from
the module root and `_extract_classes` contributes nothing. -/
theorem C1_class_records_never_produced :
    count_nodes_of_type "class_definition" t1 = 1 ∧
    count_nodes_of_type "function_definition" t1 = 1 ∧
    (parse_file t1 code1 "test.py").map (fun s => s.code_type) = [CodeType.FUNCTION] ∧
    extract_classes t1 code1 "test.py" = [] :=
  ⟨rfl, rfl, rfl, rfl⟩

/-- C2 counterexample: the claim "one record for EVERY function-definition
node anywhere in the subtree, including functions nested inside other
functions" fails.  On the parse tree of
`"def f():\n    def g():\n        pass\n"` there are two function-definition
nodes but the pass emits exactly one record, and it is the outer `f`
(starting on line 1) — the nested `g` yields no record because the pass
never descends into a function-definition's own subtree. -/
theorem C2_counterexample :
    count_nodes_of_type "function_definition" t2 = 2 ∧
    (extract_functions t2 code2 "f.py" false).length = 1 ∧
    (extract_functions t2 code2 "f.py" false).map (fun s => s.line_start) = [1] :=
  ⟨rfl, rfl, rfl⟩

/-- C2 amended: the function pass produces exactly one record per OUTERMOST
function-definition node (those not nested inside another
function-definition) and none for nested ones, and with method-context off
— as in `parse_file`'s top-level pass — every record is tagged FUNCTION. -/
theorem C2_one_record_per_outermost_fundef (n : Node) (src path : String) :
    (extract_functions n src path false).length = count_outermost_fundefs n ∧
    (extract_functions n src path false).all
      (fun s => s.code_type == CodeType.FUNCTION) = true := by
  refine ⟨extract_functions_length src path n, ?_⟩
  rw [List.all_eq_true]
  intro s hs
  have h := extract_functions_code_type src path false n s hs
  simp only [if_neg (by simp : ¬(false = true))] at h
  simp [h]

/-- C3: every record in the list returned by `parse_file` from the module
root has code type FUNCTION — the class pass never emits a CLASS or METHOD
record there, because its recursion skips every class-definition child and
the module root is never itself a class-definition, which makes the
class-emitting branch unreachable from the public entry point. -/
theorem C3_parse_file_only_function_records (root : Node) (src path : String)
    (hroot : root.type = "module") :
    (parse_file root src path).all (fun s => s.code_type == CodeType.FUNCTION) = true := by
  rw [parse_file]
  rw [extract_classes_eq_nil src path root (by rw [hroot]; decide), List.append_nil]
  rw [List.all_eq_true]
  intro s hs
  have h := extract_functions_code_type src path false root s hs
  simp only [if_neg (by simp : ¬(false = true))] at h
  simp [h]

theorem C3_witness :
    t1.type = "module" ∧
    (parse_file t1 code1 "test.py").all (fun s => s.code_type == CodeType.FUNCTION) = true :=
  ⟨rfl, C3_parse_file_only_function_records t1 code1 "test.py" rfl⟩

/-- C4 counterexample: analyzing `"def m(self, x, y):\n    pass\n"` with
`analyze_complexity` reports `num_parameters = 0`, not the claimed 2: the
helper is handed `tree.root_node` — the module node, never a
function-definition — so the counting branch never runs there. -/
theorem C4_counterexample :
    (analyze_complexity t4 code4).num_parameters = 0 ∧
    (analyze_complexity t4 code4).num_parameters ≠ 2 :=
  ⟨rfl, by decide⟩

/-- C4 amended: `_count_parameters` counts the identifier children of the
parameter-list whose text is not `self` when the node it is handed is a
function-definition, and returns 0 on any other node; because
`analyze_complexity` always hands it the module root of the parsed
fragment, analyzing `"def m(self, x, y)"` reports `parameterCount = 0`,
while the count on the function-definition node itself is 2. -/
theorem C4_parameter_count (n : Node) (src : String) (params : Node)
    (hty : n.type = "function_definition")
    (hp : n.child_by_field_name "parameters" = some params) :
    count_parameters n src =
      params.children.countP (fun c => c.type == "identifier" &&
        (get_node_text c src != "self")) ∧
    (∀ m : Node, m.type ≠ "function_definition" → count_parameters m src = 0) ∧
    count_parameters t4_fn code4 = 2 ∧
    (analyze_complexity t4 code4).num_parameters = 0 := by
  refine ⟨count_parameters_eq n src params hty hp,
    fun m hm => count_parameters_non_function m src hm, rfl, rfl⟩

theorem C4_witness :
    count_parameters t4_fn code4 =
      t4_params.children.countP (fun c => c.type == "identifier" &&
        (get_node_text c code4 != "self")) ∧
    count_parameters t4 code4 = 0 ∧
    count_parameters t4_fn code4 = 2 ∧
    (analyze_complexity t4 code4).num_parameters = 0 :=
  have h := C4_parameter_count t4_fn code4 t4_params rfl rfl
  ⟨h.1, h.2.1 t4 (by decide), h.2.2.1, h.2.2.2⟩

/-- C5: every record `parse_file` returns takes its `code` text from the
exact slice `[start_byte, end_byte)` of the input buffer at some node of
the parsed tree, and its 1-based line numbers are derived from that same
node, so text and line range always agree. -/
theorem C5_source_text_provenance (root : Node) (src path : String) (s : CodeSnippet)
    (hs : s ∈ parse_file root src path) :
    ∃ nd ∈ root.subnodes,
      s.code = string_slice src nd.start_byte nd.end_byte ∧
      s.line_start = nd.start_row + 1 ∧ s.line_end = nd.end_row + 1 := by
  rw [parse_file] at hs
  rcases List.mem_append.mp hs with hs | hs
  · exact extract_functions_provenance src path false root s hs
  · exact extract_classes_provenance src path root s hs

theorem C5_witness :
    ∃ nd ∈ tW.subnodes,
      wit_snippet.code = string_slice codeW nd.start_byte nd.end_byte ∧
      wit_snippet.line_start = nd.start_row + 1 ∧ wit_snippet.line_end = nd.end_row + 1 :=
  C5_source_text_provenance tW codeW "w.py" wit_snippet
    (by rw [show parse_file tW codeW "w.py" = [wit_snippet] from rfl]
        exact List.mem_singleton.mpr rfl)

/-- C6: in method-context the function pass drops every function whose
resolved name starts with the underscore privacy marker, except the name
`__init__`, which is always kept (tagged METHOD); with method-context off —
top-level functions — no name-based filtering happens and the single
emitted record is tagged FUNCTION. -/
theorem C6_private_method_filtering (n : Node) (src path : String)
    (hty : n.type = "function_definition") :
    (py_startswith (function_name_of n src) "_" = true →
      function_name_of n src ≠ "__init__" →
      extract_functions n src path true = []) ∧
    (function_name_of n src = "__init__" →
      (extract_functions n src path true).map (fun s => s.code_type) = [CodeType.METHOD]) ∧
    (extract_functions n src path false).map (fun s => s.code_type) = [CodeType.FUNCTION] := by
  cases n with
  | node ntype sB eB sR eR nfields cs =>
    simp only [Node.type] at hty
    subst hty
    refine ⟨?_, ?_, ?_⟩
    · intro h1 h2
      rw [extract_functions]
      simp [h1, h2, bne_iff_ne]
    · intro hname
      rw [extract_functions]
      simp [hname]
    · rw [extract_functions]
      simp

theorem C6_witness :
    extract_functions t6_helper code6h "x.py" true = [] ∧
    (extract_functions t6_init code6i "x.py" true).map (fun s => s.code_type) =
      [CodeType.METHOD] ∧
    (extract_functions t6_helper code6h "x.py" false).map (fun s => s.code_type) =
      [CodeType.FUNCTION] :=
  ⟨(C6_private_method_filtering t6_helper code6h "x.py" rfl).1 (by decide) (by decide),
   (C6_private_method_filtering t6_init code6i "x.py" rfl).2.1 (by decide),
   (C6_private_method_filtering t6_helper code6h "x.py" rfl).2.2⟩

/-- C7 counterexample: on a module whose FIRST top-level definition (`f`)
has no docstring and whose SECOND (`g`) has the docstring `"hi"`, the code
returns `"hi"`, while the spec's consult-only-the-first-definition rule
(`extract_docstring_first_only`) yields `none` — so later definitions are
NOT ignored when the first has no docstring. -/
theorem C7_counterexample :
    extract_docstring t7 code7 = some "hi" ∧
    extract_docstring_first_only t7 code7 = none ∧
    extract_docstring t7 code7 ≠ extract_docstring_first_only t7 code7 :=
  ⟨rfl, rfl, by decide⟩

/-- C7 amended: the scan consults only the immediate top-level children (no
recursion), but it returns the docstring of the first definition THAT HAS
one: it equals `findSome?` of the per-node docstring step over the
top-level children, so a first matching definition without a docstring does
not stop the scan and later definitions are then consulted. -/
theorem C7_docstring_scan_is_findSome (root : Node) (code : String) :
    extract_docstring root code =
      root.children.findSome? (fun n => docstring_step n code) := by
  rw [extract_docstring]
  exact extract_docstring_loop_eq_findSome code root.children

/-- C8 counterexample: on the fragment `"x = 1\n"`, which contains no
matching construct, the description and signature queries return the empty
optional `none` — they do NOT return the sentinel strings
`"no description found"` / `"no signature found"` the claim names. -/
theorem C8_counterexample :
    extract_docstring t8 code8 = none ∧
    get_function_signature t8 code8 = none ∧
    extract_docstring t8 code8 ≠ some "no description found" ∧
    get_function_signature t8 code8 ≠ some "no signature found" :=
  ⟨rfl, rfl, by decide, by decide⟩

/-- C8 amended: on any fragment with no matching top-level construct the
description and signature queries return the defined empty result `none`
(Python `None`) rather than raising, and the complexity query still
returns a well-defined report whose cyclomatic complexity is the base 1
plus the decision count. -/
theorem C8_empty_sentinels (root : Node) (code : String)
    (h : ∀ c ∈ root.children, c.type ≠ "function_definition" ∧ c.type ≠ "class_definition") :
    extract_docstring root code = none ∧
    get_function_signature root code = none ∧
    (analyze_complexity root code).cyclomatic_complexity = 1 + count_decision_nodes root := by
  refine ⟨extract_docstring_loop_none code root.children h,
    get_function_signature_loop_none code root.children (fun c hc => (h c hc).1), ?_⟩
  rw [analyze_complexity]
  exact calculate_cyclomatic_eq root 1

theorem C8_witness :
    extract_docstring t8 code8 = none ∧
    get_function_signature t8 code8 = none ∧
    (analyze_complexity t8 code8).cyclomatic_complexity = 1 + count_decision_nodes t8 :=
  C8_empty_sentinels t8 code8 (by decide)

/-- C9: cyclomatic complexity starts at 1 and adds exactly 1 for every node
whose type is in the fixed decision set — it is the base plus a pure,
traversal-order-independent count of the decision nodes in the subtree; on
the branch-free `"def add(a, b): return a + b"` it is exactly 1, and on the
one-`for`, one-`if`, one-`and` example it is 1 + 3 = 4. -/
theorem C9_cyclomatic_is_base_plus_decision_count :
    (∀ (n : Node) (k : Nat),
      calculate_cyclomatic_complexity n k = k + count_decision_nodes n) ∧
    (analyze_complexity t9a code9a).cyclomatic_complexity = 1 ∧
    (analyze_complexity t9b code9b).cyclomatic_complexity = 4 ∧
    count_decision_nodes t9b = 3 :=
  ⟨calculate_cyclomatic_eq, rfl, rfl, rfl⟩

set_option maxRecDepth 100000 in
/-- C10: snippet ids are a deterministic function of `(file_path, code)`;
the digest input `f"{file_path}:{code}"` differs whenever the path alone
differs; and on the truncated SHA-256 digest the code actually computes,
changing only the path changes the id, shown at a concrete input through
the full SHA-256 computation. -/
theorem C10_id_content_addressed :
    (∀ ca cb pa pb : String, ca = cb → pa = pb →
      generate_id ca pa = generate_id cb pb) ∧
    (∀ (c p1 p2 : String), p1 ≠ p2 → p1 ++ ":" ++ c ≠ p2 ++ ":" ++ c) ∧
    generate_id "def f(): pass" "a.py" ≠ generate_id "def f(): pass" "b.py" := by
  refine ⟨?_, digest_input_injective, by decide⟩
  intro ca cb pa pb hc hp
  rw [hc, hp]

theorem C10_witness :
    generate_id "x" "a.py" = generate_id "x" "a.py" ∧
    "a.py" ++ ":" ++ "x" ≠ "b.py" ++ ":" ++ "x" :=
  ⟨C10_id_content_addressed.1 "x" "x" "a.py" "a.py" rfl rfl,
   C10_id_content_addressed.2.1 "x" "a.py" "b.py" (by decide)⟩
